import Mathlib

/-
Verification of the VCP / Fallen-Angel market-screening core
(`scanner_core.py`) against its natural-language specification.

The embedding models daily bars with exact rationals.  Scalar
computations that, in the original, are IEEE floating-point expressions
able to produce NaN or infinities (pandas/numpy divisions, rolling
windows) are modelled by the type `FVal` below, which carries a rational
payload together with `nan`, `inf` and `ninf` and mirrors the IEEE
comparison rules (every comparison against `nan` is false).  Prices and
volumes themselves are exact rationals, so no rounding behaviour of
binary floats is modelled; all the gates compare values that the source
derives by field arithmetic, which the rationals reproduce exactly.

Conventions documented once here:
* bar rows are total records; the upstream `dropna` calls (which happen
  before the gates run on both entry points) are therefore the identity;
* plain rational division `q / 0 = 0` of the Lean library is never
  exercised by the theorems below: wherever the source divides by a
  quantity that may be zero without raising, the model uses `FVal`
  division with the numpy rules, and the remaining rational divisions
  are guarded by hypotheses (positive prices) matching the paths on
  which the source would otherwise raise `ZeroDivisionError`;
* a pandas series index is modelled by a natural-number date attached to
  each row; date indices are assumed free of duplicates, as the data
  model of the specification states.
-/

unseal Rat.mul Rat.inv Rat.add Rat.sub

/-- Scalar values of floating-point expressions: an exact rational, or one
of the three non-finite IEEE values produced by numpy arithmetic. -/
inductive FVal where
  | nan : FVal
  | inf : FVal
  | ninf : FVal
  | val : ℚ → FVal
deriving DecidableEq

namespace FVal

/-- Model of `pd.isna` on a scalar. -/
def isna : FVal → Bool
  | .nan => true
  | _ => false

/-- IEEE strict less-than: false whenever either side is NaN. -/
def lt : FVal → FVal → Bool
  | .nan, _ => false
  | _, .nan => false
  | .inf, _ => false
  | .ninf, .ninf => false
  | .ninf, _ => true
  | .val _, .inf => true
  | .val _, .ninf => false
  | .val a, .val b => decide (a < b)

/-- IEEE less-or-equal: false whenever either side is NaN. -/
def le : FVal → FVal → Bool
  | .nan, _ => false
  | _, .nan => false
  | .ninf, _ => true
  | _, .inf => true
  | .inf, _ => false
  | _, .ninf => false
  | .val a, .val b => decide (a ≤ b)

/-- IEEE addition restricted to the values the pipeline can produce. -/
def add : FVal → FVal → FVal
  | .nan, _ => .nan
  | _, .nan => .nan
  | .inf, .ninf => .nan
  | .ninf, .inf => .nan
  | .inf, _ => .inf
  | _, .inf => .inf
  | .ninf, _ => .ninf
  | _, .ninf => .ninf
  | .val a, .val b => .val (a + b)

/-- IEEE subtraction. -/
def sub : FVal → FVal → FVal
  | .nan, _ => .nan
  | _, .nan => .nan
  | .inf, .inf => .nan
  | .ninf, .ninf => .nan
  | .inf, _ => .inf
  | .ninf, _ => .ninf
  | _, .inf => .ninf
  | _, .ninf => .inf
  | .val a, .val b => .val (a - b)

/-- IEEE multiplication. -/
def mul : FVal → FVal → FVal
  | .nan, _ => .nan
  | _, .nan => .nan
  | .inf, .inf => .inf
  | .inf, .ninf => .ninf
  | .ninf, .inf => .ninf
  | .ninf, .ninf => .inf
  | .inf, .val b => if 0 < b then .inf else if b < 0 then .ninf else .nan
  | .val a, .inf => if 0 < a then .inf else if a < 0 then .ninf else .nan
  | .ninf, .val b => if 0 < b then .ninf else if b < 0 then .inf else .nan
  | .val a, .ninf => if 0 < a then .ninf else if a < 0 then .inf else .nan
  | .val a, .val b => .val (a * b)

/-- IEEE division with the numpy zero-division rules (`x/0 = ±inf`,
`0/0 = nan`). -/
def div : FVal → FVal → FVal
  | .nan, _ => .nan
  | _, .nan => .nan
  | .inf, .inf => .nan
  | .inf, .ninf => .nan
  | .ninf, .inf => .nan
  | .ninf, .ninf => .nan
  | .inf, .val b => if 0 ≤ b then .inf else .ninf
  | .ninf, .val b => if 0 ≤ b then .ninf else .inf
  | .val _, .inf => .val 0
  | .val _, .ninf => .val 0
  | .val a, .val b =>
      if b = 0 then (if a = 0 then .nan else if 0 < a then .inf else .ninf)
      else .val (a / b)

/-- Model of the Python builtin `max` on two non-NaN floats. -/
def pymax (x y : FVal) : FVal := if lt x y then y else x

end FVal

/-- Model of the helper `_safe_div` of the source: return `default` when
the denominator is zero or NaN, otherwise divide. -/
def safeDiv (a b default : FVal) : FVal :=
  if b = FVal.val 0 ∨ b.isna then default else FVal.div a b

/-- Last `n` elements of a list, as `Series.tail(n)` returns them. -/
def takeLast (n : ℕ) (xs : List α) : List α := xs.drop (xs.length - n)

/-- Python `max` of two rationals (the larger value, the first on ties). -/
def qmax (a b : ℚ) : ℚ := if a < b then b else a

/-- Python `min` of two rationals. -/
def qmin (a b : ℚ) : ℚ := if b < a then b else a

/-- One round of pairwise combination, used to reduce a window with a
balanced association.  Combining a window by a balanced tree instead of
a left fold computes the same maximum / minimum (the operations used
with it are associative and commutative) while keeping kernel reduction
shallow enough to evaluate 260-day windows. -/
def pairStep (f : α → α → α) : List α → List α
  | a :: b :: tl => f a b :: pairStep f tl
  | l => l

/-- Balanced reduction of a list by `f`, `d` on the empty list; the fuel
argument (instantiated with the length) only drives termination. -/
def reduceGo (f : α → α → α) (d : α) : ℕ → List α → α
  | _, [] => d
  | _, [a] => a
  | 0, _ => d
  | fuel + 1, l => reduceGo f d fuel (pairStep f l)

/-- Balanced reduction of a whole list. -/
def reduceBal (f : α → α → α) (d : α) (l : List α) : α := reduceGo f d l.length l

/-- Maximum of a list of rationals, with the (never exercised) default 0
on the empty list; `max(list)` of Python on a nonempty list. -/
def listMaxD (l : List ℚ) : ℚ := reduceBal qmax 0 l

/-- Minimum of a list of rationals, Python `min(list)` on a nonempty list. -/
def listMinD (l : List ℚ) : ℚ := reduceBal qmin 0 l

/-- Mean of the last `n` entries of a series, `Series.tail(n).mean()`. -/
def tailMean (n : ℕ) (xs : List ℚ) : ℚ :=
  let ys := takeLast n xs
  ys.foldl (· + ·) 0 / (ys.length : ℚ)

/-- Last value of the simple moving average of window `n`, as
`ta.sma(close, n).iloc[-1]`; `none` models the cases the chain gate
treats as failure (`ta.sma` unavailable / not enough observations). -/
def smaLast (n : ℕ) (xs : List ℚ) : Option ℚ :=
  if xs.length < n ∨ n = 0 then none else some (tailMean n xs)

/-- Maximum of a full rolling window of rationals as an `FVal`:
`Series.rolling(n).max().iloc[-1]` over a NaN-free series. -/
def rollingMaxLastQ (n : ℕ) (xs : List ℚ) : FVal :=
  if xs.length < n ∨ n = 0 then .nan else .val (listMaxD (takeLast n xs))

/-- Python `max` over a NaN-free window (balanced association, see
`pairStep`). -/
def winMax : List FVal → FVal
  | [] => .nan
  | l => reduceBal FVal.pymax .nan l

/-- Last value of `rolling(n).max()` over a series that may contain NaN:
with the default `min_periods`, any NaN inside the window gives NaN. -/
def rollingMaxLastF (n : ℕ) (xs : List FVal) : FVal :=
  if xs.length < n ∨ n = 0 then .nan
  else
    let w := takeLast n xs
    if w.any FVal.isna then .nan else winMax w

/-- Mean of a NaN-free window of `FVal`s. -/
def winMean (w : List FVal) : FVal :=
  FVal.div (w.foldl FVal.add (.val 0)) (.val (w.length : ℚ))

/-- Value of `rolling(n).mean().shift(k).iloc[-1]`: the rolling mean at
position `len - 1 - k`, NaN when that window is unavailable or touches a
NaN entry. -/
def shiftRollMeanLast (n k : ℕ) (xs : List FVal) : FVal :=
  let ys := xs.take (xs.length - k)
  if ys.length < n ∨ n = 0 then .nan
  else
    let w := takeLast n ys
    if w.any FVal.isna then .nan else winMean w

/-- NaN-skipping maximum, `Series.max(skipna=True)`: NaN iff every entry
is NaN (balanced association, see `pairStep`). -/
def maxSkipna (xs : List FVal) : FVal :=
  match xs.filter (fun x => !x.isna) with
  | [] => .nan
  | l => reduceBal FVal.pymax .nan l

/-- Series of `pct_change(k)`: entry `i` is `x i / x (i-k) - 1`, NaN for
the first `k` positions; the underlying series is NaN-free. -/
def pctChange (k : ℕ) (xs : List ℚ) : List FVal :=
  List.zipWith (fun c p => FVal.sub (FVal.div (.val c) p) (.val 1))
    xs (List.replicate k FVal.nan ++ xs.map FVal.val)

/-- Ceiling of a rational as an integer, `math.ceil`. -/
def ratCeil (q : ℚ) : ℤ := ⌈q⌉

/-- Configuration surface of the scanner.  The module holding these
constants is not part of the sources; the field set mirrors §6 of the
specification.  Two names are shortened because of lexical constraints
of this development: `vduMax` stands for the spec's VDU_MAX_RATIO and
`maxRsDdToPriceDd` for MAX_RS_DD_TO_PRICE_DD_RATIO. -/
structure Config where
  MIN_PRICE : ℚ
  MIN_DOLLAR_VOL_20D : ℚ
  LOW_52W_MULTIPLIER : ℚ
  CONSOLIDATION_MAX_DEPTH_60D : ℚ
  vduMax : ℚ
  VCP_TIGHT_DAYS : ℕ
  VCP_GAP_THRESHOLD : ℚ
  VCP_DEFAULT_TIGHTNESS : ℚ
  LEADER_PEAK_LOOKBACK_D : ℕ
  MIN_PEAK_EXCESS_3M : ℚ
  MIN_PEAK_EXCESS_6M : ℚ
  RESILIENCE_LOOKBACK_D : ℕ
  MIN_RS_NEAR_HIGH_PCT : ℚ
  maxRsDdToPriceDd : ℚ
  MIN_PRICE_DD : ℚ
  MAX_PRICE_DD : ℚ
  RS_MA_LEN : ℕ
  RS_SLOPE_LOOKBACK_D : ℕ
  MIN_RS_MA20_SLOPE : ℚ
deriving DecidableEq

/-- Modelled from the spec: the configuration constants used by
`scanner_core` live in a module absent from the sources; the defaults
below are the ones §4 of the specification states, completed by the
literals that `diagnose_single_stock` hard-codes (price 10, dollar
volume 2·10⁷, 52-week multiplier 1.25, depth 0.30, VDU ratio 0.70,
default tightness 0.035) and the comments of `check_vcp_criteria`. -/
def defaultConfig : Config where
  MIN_PRICE := 10
  MIN_DOLLAR_VOL_20D := 20000000
  LOW_52W_MULTIPLIER := 5 / 4
  CONSOLIDATION_MAX_DEPTH_60D := 3 / 10
  vduMax := 7 / 10
  VCP_TIGHT_DAYS := 10
  VCP_GAP_THRESHOLD := 1 / 25
  VCP_DEFAULT_TIGHTNESS := 7 / 200
  LEADER_PEAK_LOOKBACK_D := 126
  MIN_PEAK_EXCESS_3M := 3 / 20
  MIN_PEAK_EXCESS_6M := 1 / 4
  RESILIENCE_LOOKBACK_D := 126
  MIN_RS_NEAR_HIGH_PCT := 23 / 25
  maxRsDdToPriceDd := 3 / 5
  MIN_PRICE_DD := 1 / 20
  MAX_PRICE_DD := 7 / 20
  RS_MA_LEN := 20
  RS_SLOPE_LOOKBACK_D := 5
  MIN_RS_MA20_SLOPE := 0

/-- One OHLCV bar. -/
structure Bar where
  op : ℚ
  hi : ℚ
  lo : ℚ
  cl : ℚ
  vol : ℚ
deriving DecidableEq

/-- A bar series: rows of (trading-day date, bar). -/
abbrev Df := List (ℕ × Bar)

def closesOf (df : Df) : List ℚ := df.map (fun r => r.2.cl)
def opensOf (df : Df) : List ℚ := df.map (fun r => r.2.op)
def highsOf (df : Df) : List ℚ := df.map (fun r => r.2.hi)
def lowsOf (df : Df) : List ℚ := df.map (fun r => r.2.lo)
def volsOf (df : Df) : List ℚ := df.map (fun r => r.2.vol)

def currentClose (df : Df) : ℚ := (closesOf df).getLastD 0

/-- Benchmark close observation at a given date, `qqq_close[d]`. -/
def lookupDate (d : ℕ) (qqq : List (ℕ × ℚ)) : Option ℚ :=
  (qqq.find? (fun p => p.1 == d)).map (fun p => p.2)

/-- Model of `qqq_close.reindex(dates).ffill()`: walk the stock dates in
order, carrying the last benchmark observation seen at one of them. -/
def reindexFfill (qqq : List (ℕ × ℚ)) : List ℕ → Option ℚ → List (Option ℚ)
  | [], _ => []
  | d :: ds, st =>
      let cur := match lookupDate d qqq with
        | some v => some v
        | none => st
      cur :: reindexFfill qqq ds cur

/-- Model of lines 117–120 of the source: reindex the benchmark onto the
stock dates, forward-fill it, concatenate and drop incomplete rows. -/
def alignPair (stock : List (ℕ × ℚ)) (qqq : List (ℕ × ℚ)) :
    List (ℕ × ℚ × ℚ) :=
  (stock.zip (reindexFfill qqq (stock.map Prod.fst) none)).filterMap
    (fun p => p.2.map (fun b => (p.1.1, p.1.2, b)))

/-- Alignment as the specification words it (§3 Aligned Pair): the
intersection by date of the two series, every row where either leg is
missing dropped, nothing carried forward.  This definition follows the
spec text and exists to be compared with `alignPair`, which follows the
source. -/
def alignPairSpec (stock : List (ℕ × ℚ)) (qqq : List (ℕ × ℚ)) :
    List (ℕ × ℚ × ℚ) :=
  stock.filterMap (fun p => (lookupDate p.1 qqq).map (fun b => (p.1, p.2, b)))

def stockCloseSeries (df : Df) : List (ℕ × ℚ) := df.map (fun r => (r.1, r.2.cl))

/-- Aligned pair of a bar series and the benchmark closes. -/
def alignedOf (df : Df) (qqq : List (ℕ × ℚ)) : List (ℕ × ℚ × ℚ) :=
  alignPair (stockCloseSeries df) qqq

def alignedS (df : Df) (qqq : List (ℕ × ℚ)) : List ℚ :=
  (alignedOf df qqq).map (fun r => r.2.1)

def alignedB (df : Df) (qqq : List (ℕ × ℚ)) : List ℚ :=
  (alignedOf df qqq).map (fun r => r.2.2)

/-- The Feature Bundle: the four named scalar outputs of the
Fallen-Angel gate. -/
structure Features where
  leader_peak_excess : FVal
  rs_near_high_pct : FVal
  rs_dd_vs_price_dd : FVal
  rs_ma20_slope : FVal
deriving DecidableEq

/-- The bundle before anything is computed: every feature NaN. -/
def nanFeatures : Features :=
  { leader_peak_excess := .nan, rs_near_high_pct := .nan,
    rs_dd_vs_price_dd := .nan, rs_ma20_slope := .nan }

/-- The RS line, `close_s / close_b` pointwise. -/
def rsLine (closeS closeB : List ℚ) : List FVal :=
  List.zipWith (fun a b => FVal.div (.val a) (.val b)) closeS closeB

/-- Maximum over the trailing lookback window of the excess-return
series `stock.pct_change(k) - bench.pct_change(k)`. -/
def exMax (k lb : ℕ) (closeS closeB : List ℚ) : FVal :=
  maxSkipna (takeLast lb (List.zipWith FVal.sub (pctChange k closeS) (pctChange k closeB)))

def maxEx3 (cfg : Config) (closeS closeB : List ℚ) : FVal :=
  exMax 63 cfg.LEADER_PEAK_LOOKBACK_D closeS closeB

def maxEx6 (cfg : Config) (closeS closeB : List ℚ) : FVal :=
  exMax 126 cfg.LEADER_PEAK_LOOKBACK_D closeS closeB

/-- `max(max_ex3 if notna else -999, max_ex6 if notna else -999)`. -/
def leaderPeak (cfg : Config) (closeS closeB : List ℚ) : FVal :=
  FVal.pymax
    (if (maxEx3 cfg closeS closeB).isna then .val (-999) else maxEx3 cfg closeS closeB)
    (if (maxEx6 cfg closeS closeB).isna then .val (-999) else maxEx6 cfg closeS closeB)

/-- Stage A (Leader Peak) pass condition, lines 142–143 of the source. -/
def stageA_ok (cfg : Config) (closeS closeB : List ℚ) : Bool :=
  (!(maxEx3 cfg closeS closeB).isna &&
    FVal.le (.val cfg.MIN_PEAK_EXCESS_3M) (maxEx3 cfg closeS closeB)) ||
  (!(maxEx6 cfg closeS closeB).isna &&
    FVal.le (.val cfg.MIN_PEAK_EXCESS_6M) (maxEx6 cfg closeS closeB))

/-- Feature bundle after the Stage-A block. -/
def featA (cfg : Config) (closeS closeB : List ℚ) : Features :=
  if leaderPeak cfg closeS closeB ≠ FVal.val (-999) then
    { nanFeatures with
        leader_peak_excess := FVal.mul (leaderPeak cfg closeS closeB) (.val 100) }
  else nanFeatures

def rsNow (closeS closeB : List ℚ) : FVal := (rsLine closeS closeB).getLastD .nan

def rshNow (cfg : Config) (closeS closeB : List ℚ) : FVal :=
  rollingMaxLastF cfg.RESILIENCE_LOOKBACK_D (rsLine closeS closeB)

def phNow (cfg : Config) (closeS : List ℚ) : FVal :=
  rollingMaxLastQ cfg.RESILIENCE_LOOKBACK_D closeS

/-- `price_dd = 1 - _safe_div(c_now, ph_now, nan)`. -/
def priceDd (cfg : Config) (closeS : List ℚ) : FVal :=
  FVal.sub (.val 1) (safeDiv (.val (closeS.getLastD 0)) (phNow cfg closeS) .nan)

/-- `rs_dd = 1 - _safe_div(rs_now, rsh_now, nan)`. -/
def rsDd (cfg : Config) (closeS closeB : List ℚ) : FVal :=
  FVal.sub (.val 1) (safeDiv (rsNow closeS closeB) (rshNow cfg closeS closeB) .nan)

def rsNearHigh (cfg : Config) (closeS closeB : List ℚ) : FVal :=
  safeDiv (rsNow closeS closeB) (rshNow cfg closeS closeB) .nan

/-- `ratio = _safe_div(rs_dd, price_dd, inf)`. -/
def rsRatio (cfg : Config) (closeS closeB : List ℚ) : FVal :=
  safeDiv (rsDd cfg closeS closeB) (priceDd cfg closeS) .inf

/-- Stage B (Resilience) pass condition: the length precondition of line
149, the price-drawdown band of line 172 and the resilience conjunction
of lines 175–176. -/
def stageB_ok (cfg : Config) (closeS closeB : List ℚ) : Bool :=
  !(decide (closeS.length < cfg.RESILIENCE_LOOKBACK_D + 5)) &&
  !((priceDd cfg closeS).isna ||
    !(FVal.le (.val cfg.MIN_PRICE_DD) (priceDd cfg closeS) &&
      FVal.le (priceDd cfg closeS) (.val cfg.MAX_PRICE_DD))) &&
  ((!(rsNearHigh cfg closeS closeB).isna &&
    FVal.le (.val cfg.MIN_RS_NEAR_HIGH_PCT) (rsNearHigh cfg closeS closeB)) &&
   (!(rsRatio cfg closeS closeB).isna &&
    FVal.le (rsRatio cfg closeS closeB) (.val cfg.maxRsDdToPriceDd)))

/-- Feature bundle after the Stage-B block. -/
def featB (cfg : Config) (closeS closeB : List ℚ) : Features :=
  if closeS.length < cfg.RESILIENCE_LOOKBACK_D + 5 then featA cfg closeS closeB
  else
    { featA cfg closeS closeB with
        rs_near_high_pct :=
          if !(rsNearHigh cfg closeS closeB).isna then
            FVal.mul (rsNearHigh cfg closeS closeB) (.val 100)
          else (featA cfg closeS closeB).rs_near_high_pct
        rs_dd_vs_price_dd :=
          if !(rsRatio cfg closeS closeB).isna then rsRatio cfg closeS closeB
          else (featA cfg closeS closeB).rs_dd_vs_price_dd }

def rsMaNow (cfg : Config) (closeS closeB : List ℚ) : FVal :=
  shiftRollMeanLast cfg.RS_MA_LEN 0 (rsLine closeS closeB)

def rsMaPrev (cfg : Config) (closeS closeB : List ℚ) : FVal :=
  shiftRollMeanLast cfg.RS_MA_LEN cfg.RS_SLOPE_LOOKBACK_D (rsLine closeS closeB)

/-- `rs_ma_slope = _safe_div(ma_now, ma_prev, nan) - 1`. -/
def rsMaSlope (cfg : Config) (closeS closeB : List ℚ) : FVal :=
  FVal.sub (safeDiv (rsMaNow cfg closeS closeB) (rsMaPrev cfg closeS closeB) .nan) (.val 1)

/-- Stage C (Turn-up) pass condition: the NaN guard of line 182 and the
turn-up conjunction of line 192. -/
def stageC_ok (cfg : Config) (closeS closeB : List ℚ) : Bool :=
  !(rsMaNow cfg closeS closeB).isna &&
  (FVal.lt (rsMaNow cfg closeS closeB) (rsNow closeS closeB) &&
   (!(rsMaSlope cfg closeS closeB).isna &&
    FVal.lt (.val cfg.MIN_RS_MA20_SLOPE) (rsMaSlope cfg closeS closeB)))

/-- Feature bundle after the Stage-C block. -/
def featC (cfg : Config) (closeS closeB : List ℚ) : Features :=
  if (rsMaNow cfg closeS closeB).isna then featB cfg closeS closeB
  else if !(rsMaSlope cfg closeS closeB).isna then
    { featB cfg closeS closeB with
        rs_ma20_slope := FVal.mul (rsMaSlope cfg closeS closeB) (.val 100) }
  else featB cfg closeS closeB

/-- Model of `compute_fallen_angel_rs_features` (lines 94–196 of the
source), transcribed with its early returns; `(pass, features)`. -/
def compute_fallen_angel_rs_features (cfg : Config) (df : Df)
    (qqq : List (ℕ × ℚ)) : Bool × Features :=
  if df.isEmpty || qqq.isEmpty then (false, nanFeatures) else
  let S := alignedS df qqq
  let B := alignedB df qqq
  if (alignedOf df qqq).length < 260 then (false, nanFeatures) else
  let f1 :=
    if leaderPeak cfg S B ≠ FVal.val (-999) then
      { nanFeatures with leader_peak_excess := FVal.mul (leaderPeak cfg S B) (.val 100) }
    else nanFeatures
  if ¬ ((!(maxEx3 cfg S B).isna && FVal.le (.val cfg.MIN_PEAK_EXCESS_3M) (maxEx3 cfg S B)) ||
        (!(maxEx6 cfg S B).isna && FVal.le (.val cfg.MIN_PEAK_EXCESS_6M) (maxEx6 cfg S B)))
    then (false, f1) else
  if (alignedOf df qqq).length < cfg.RESILIENCE_LOOKBACK_D + 5 then (false, f1) else
  let f2 :=
    { f1 with
        rs_near_high_pct :=
          if !(rsNearHigh cfg S B).isna then FVal.mul (rsNearHigh cfg S B) (.val 100)
          else f1.rs_near_high_pct
        rs_dd_vs_price_dd :=
          if !(rsRatio cfg S B).isna then rsRatio cfg S B else f1.rs_dd_vs_price_dd }
  if (priceDd cfg S).isna ||
     !(FVal.le (.val cfg.MIN_PRICE_DD) (priceDd cfg S) &&
       FVal.le (priceDd cfg S) (.val cfg.MAX_PRICE_DD)) then (false, f2) else
  if ¬ ((!(rsNearHigh cfg S B).isna &&
         FVal.le (.val cfg.MIN_RS_NEAR_HIGH_PCT) (rsNearHigh cfg S B)) &&
        (!(rsRatio cfg S B).isna &&
         FVal.le (rsRatio cfg S B) (.val cfg.maxRsDdToPriceDd))) then (false, f2) else
  if (rsMaNow cfg S B).isna then (false, f2) else
  let f3 :=
    if !(rsMaSlope cfg S B).isna then
      { f2 with rs_ma20_slope := FVal.mul (rsMaSlope cfg S B) (.val 100) }
    else f2
  if ¬ (FVal.lt (rsMaNow cfg S B) (rsNow S B) &&
        (!(rsMaSlope cfg S B).isna &&
         FVal.lt (.val cfg.MIN_RS_MA20_SLOPE) (rsMaSlope cfg S B))) then (false, f3)
  else (true, f3)

/-- Overnight-gap magnitude at loop index `i` of the tightness window:
`(open[i] - close[i-1]) / close[i-1]`.  The model assumes the window
closes are nonzero (the source would raise on a zero close; the theorems
below hypothesise this where it matters). -/
def gapAt (closes opens : List ℚ) (i : ℕ) : ℚ :=
  (opens.getD i 0 - closes.getD (i - 1) 0) / closes.getD (i - 1) 0

/-- Same-day gain magnitude `(close[i] - close[i-1]) / close[i-1]`. -/
def gainAt (closes : List ℚ) (i : ℕ) : ℚ :=
  (closes.getD i 0 - closes.getD (i - 1) 0) / closes.getD (i - 1) 0

/-- Tolerance installed by a qualifying day:
`ceil(max(gap, day_gain) * 100) / 100`. -/
def tolAt (closes opens : List ℚ) (i : ℕ) : ℚ :=
  (ratCeil (qmax (gapAt closes opens i) (gainAt closes i) * 100) : ℚ) / 100

/-- The dynamic-tightness scan, lines 267–289 of the source: walk the
days `1 … N-1` in order; every day whose gap magnitude strictly exceeds
`thr` resets the valid start index to itself and installs its own
tolerance.  Returns `(valid_start_index, allowed_tightness)`. -/
def tightnessScan (thr dflt : ℚ) (closes opens : List ℚ) : ℕ × ℚ :=
  (List.range' 1 (closes.length - 1)).foldl
    (fun st i => if thr < gapAt closes opens i then (i, tolAt closes opens i) else st)
    (0, dflt)

/-- The tightness gate, lines 291–303 of the source: vacuous pass when
fewer than two closes remain after the reset, else the adjusted range
over the latest close must not exceed the allowed tightness. -/
def vcpTightOk (thr dflt : ℚ) (closes opens : List ℚ) (lastC : ℚ) : Bool :=
  let st := tightnessScan thr dflt closes opens
  let adjusted := closes.drop st.1
  if adjusted.length < 2 then true
  else !(decide (st.2 < (listMaxD adjusted - listMinD adjusted) / lastC))

def avgVol20 (df : Df) : ℚ := tailMean 20 (volsOf df)

def avgVol3 (df : Df) : ℚ := tailMean 3 (volsOf df)

def low52w (df : Df) : ℚ := listMinD (takeLast 250 (lowsOf df))

def high60 (df : Df) : ℚ := listMaxD (takeLast 60 (highsOf df))

def low60 (df : Df) : ℚ := listMinD (takeLast 60 (lowsOf df))

/-- `consolidation_depth = (high_60 - low_60) / high_60` as the numpy
expression of line 253. -/
def depth60 (df : Df) : FVal :=
  FVal.div (.val (high60 df - low60 df)) (.val (high60 df))

/-- Length gate: at least 260 observations (line 225). -/
def lengthOk (df : Df) : Bool := !(decide (df.length < 260))

/-- Price gate of line 237. -/
def priceOk (cfg : Config) (df : Df) : Bool :=
  !(decide (currentClose df < cfg.MIN_PRICE))

/-- Liquidity gate of line 242. -/
def dollarOk (cfg : Config) (df : Df) : Bool :=
  !(decide (currentClose df * avgVol20 df < cfg.MIN_DOLLAR_VOL_20D))

/-- 52-week-position gate of line 247. -/
def posOk (cfg : Config) (df : Df) : Bool :=
  !(decide (currentClose df < low52w df * cfg.LOW_52W_MULTIPLIER))

/-- Consolidation-depth gate of line 254. -/
def depthOk (cfg : Config) (df : Df) : Bool :=
  !(FVal.lt (.val cfg.CONSOLIDATION_MAX_DEPTH_60D) (depth60 df))

/-- Volume dry-up gate of line 259 (fails when the 3-day average volume
is at least the scaled 20-day average). -/
def vduOk (cfg : Config) (df : Df) : Bool :=
  !(decide (avgVol20 df * cfg.vduMax ≤ avgVol3 df))

/-- Dynamic-tightness gate applied to the trailing window of the series. -/
def tightOk (cfg : Config) (df : Df) : Bool :=
  vcpTightOk cfg.VCP_GAP_THRESHOLD cfg.VCP_DEFAULT_TIGHTNESS
    (takeLast cfg.VCP_TIGHT_DAYS (closesOf df))
    (takeLast cfg.VCP_TIGHT_DAYS (opensOf df))
    (currentClose df)

/-- Fallen-Angel gate of lines 306–309: skipped when no benchmark is
given. -/
def rsOkOpt (cfg : Config) (df : Df) : Option (List (ℕ × ℚ)) → Bool
  | some q => (compute_fallen_angel_rs_features cfg df q).1
  | none => true

/-- Trend gate of lines 313–319. -/
def trendOk (df : Df) : Bool :=
  match smaLast 50 (closesOf df), smaLast 200 (closesOf df) with
  | some s50, some s200 =>
      !(decide (currentClose df < s50)) && !(decide (s50 < s200))
  | _, _ => false

/-- Model of `check_vcp_criteria` (lines 220–321 of the source),
transcribed with its early returns. -/
def check_vcp_criteria (cfg : Config) (df : Df)
    (qqq : Option (List (ℕ × ℚ))) : Bool :=
  if df.length < 260 then false else
  let c_now := currentClose df
  if c_now < cfg.MIN_PRICE then false else
  if c_now * avgVol20 df < cfg.MIN_DOLLAR_VOL_20D then false else
  if c_now < low52w df * cfg.LOW_52W_MULTIPLIER then false else
  if FVal.lt (.val cfg.CONSOLIDATION_MAX_DEPTH_60D) (depth60 df) then false else
  if avgVol20 df * cfg.vduMax ≤ avgVol3 df then false else
  let rc := takeLast cfg.VCP_TIGHT_DAYS (closesOf df)
  let ro := takeLast cfg.VCP_TIGHT_DAYS (opensOf df)
  let st := tightnessScan cfg.VCP_GAP_THRESHOLD cfg.VCP_DEFAULT_TIGHTNESS rc ro
  let adjusted := rc.drop st.1
  if 2 ≤ adjusted.length ∧ st.2 < (listMaxD adjusted - listMinD adjusted) / c_now
    then false else
  if (match qqq with
      | some q => !(compute_fallen_angel_rs_features cfg df q).1
      | none => false) then false else
  match smaLast 50 (closesOf df), smaLast 200 (closesOf df) with
  | some s50, some s200 =>
      if c_now < s50 then false else if s50 < s200 then false else true
  | _, _ => false

/-- Model of the pass/fail verdict of `diagnose_single_stock` (lines
324–454): every gate is evaluated and the verdict is the conjunction of
all of them; the report strings carry no further logic and are not
modelled.  The numeric thresholds are the literals hard-coded there. -/
def diagnose_single_stock_pass (cfg : Config) (df : Df)
    (qqq : Option (List (ℕ × ℚ))) : Bool :=
  if df.length < 260 then false else
  let c_now := currentClose df
  let pPrice := decide ((10 : ℚ) ≤ c_now)
  let pDollar := decide ((20000000 : ℚ) ≤ c_now * avgVol20 df)
  let pPos := decide (low52w df * (5 / 4) ≤ c_now)
  let pDepth := FVal.le (depth60 df) (.val (3 / 10))
  let pVdu := FVal.lt (FVal.div (.val (avgVol3 df)) (.val (avgVol20 df))) (.val (7 / 10))
  let rc := takeLast cfg.VCP_TIGHT_DAYS (closesOf df)
  let ro := takeLast cfg.VCP_TIGHT_DAYS (opensOf df)
  let st := tightnessScan cfg.VCP_GAP_THRESHOLD (7 / 200) rc ro
  let adjusted := rc.drop st.1
  let pTight := decide ((listMaxD adjusted - listMinD adjusted) / c_now ≤ st.2)
  let pRs := match qqq with
    | some q =>
        if q.isEmpty then true else (compute_fallen_angel_rs_features cfg df q).1
    | none => true
  let pTrend := match smaLast 50 (closesOf df), smaLast 200 (closesOf df) with
    | some s50, some s200 => decide (s50 < c_now) && decide (s200 < s50)
    | _, _ => false
  pPrice && pDollar && pPos && pDepth && pVdu && pTight && pRs && pTrend

/-- Closing price of the running example series: an early base at 15, a
leadership leg at 100/3, and a consolidation at 30. -/
def closeAt (i : ℕ) : ℚ := if i < 134 then 15 else if i < 210 then 100 / 3 else 30

/-- Bars of the running example series. -/
def barAt (i : ℕ) : Bar :=
  { op := closeAt i, hi := 34, lo := if i < 200 then 20 else 28, cl := closeAt i,
    vol := if i < 257 then 1000000 else 100 }

/-- A 260-day bar series that satisfies every gate of the chain, with
the last close exactly equal to the 50-day moving average. -/
def exDf : Df := (List.range 260).map (fun i => (i, barAt i))

/-- Benchmark closes for the running example: flat, then stronger during
the stock's leadership leg, then collapsing over the last twenty days so
that the relative-strength line turns up. -/
def benchAt (i : ℕ) : ℚ :=
  if i < 134 then 100 else if i < 210 then 105 else if i < 240 then 100
  else 3000 / (i - 139 : ℕ)

def qqqEx : List (ℕ × ℚ) := (List.range 260).map (fun i => (i, benchAt i))

theorem foldl_if_eq_lastFilter {α : Type} (g : ℕ → α) (P : ℕ → Prop) [DecidablePred P]
    (L : List ℕ) (st : α) :
    L.foldl (fun s i => if P i then g i else s) st =
      ((L.filter (fun i => decide (P i))).getLast?).elim st g := by
  induction L generalizing st with
  | nil => simp
  | cons a tl ih =>
    simp only [List.foldl_cons, List.filter_cons]
    by_cases h : P a
    · rw [if_pos h, ih]
      simp only [decide_eq_true_eq, h, if_pos, List.getLast?_cons]
      cases hl : (tl.filter (fun i => decide (P i))).getLast? <;> simp [hl]
    · rw [if_neg h, ih]
      simp [h]

theorem getLast?_filter_of_max {p : ℕ → Bool} {L : List ℕ} (hs : L.Pairwise (· < ·))
    {j : ℕ} (hj : j ∈ L) (hpj : p j = true) (hmax : ∀ k ∈ L, p k = true → k ≤ j) :
    (L.filter p).getLast? = some j := by
  induction L with
  | nil => cases hj
  | cons a tl ih =>
    rcases List.pairwise_cons.1 hs with ⟨ha, hs2⟩
    rcases List.mem_cons.1 hj with rfl | hj2
    · have htl : tl.filter p = [] := by
        rw [List.filter_eq_nil_iff]
        intro k hk hpk
        exact absurd (ha k hk) (not_lt.2 (hmax k (List.mem_cons_of_mem _ hk) hpk))
      rw [List.filter_cons_of_pos hpj, htl]
      rfl
    · have hlast := ih hs2 hj2 (fun k hk hpk => hmax k (List.mem_cons_of_mem _ hk) hpk)
      by_cases hpa : p a = true
      · rw [List.filter_cons_of_pos hpa, List.getLast?_cons, hlast]
        rfl
      · rw [List.filter_cons_of_neg (by simpa using hpa)]
        exact hlast

/-- Closed form of the dynamic-tightness scan when a last qualifying day
exists. -/
theorem tightnessScan_last_trigger (thr dflt : ℚ) (closes opens : List ℚ) (j : ℕ)
    (hj1 : 1 ≤ j) (hj2 : j < closes.length) (htrig : thr < gapAt closes opens j)
    (hmax : ∀ k < closes.length, j < k → gapAt closes opens k ≤ thr) :
    tightnessScan thr dflt closes opens = (j, tolAt closes opens j) := by
  unfold tightnessScan
  rw [foldl_if_eq_lastFilter (fun i => (i, tolAt closes opens i))
        (fun i => thr < gapAt closes opens i)]
  rw [getLast?_filter_of_max (List.pairwise_lt_range' 1 (closes.length - 1))
        (by rw [List.mem_range'_1]; omega)
        (decide_eq_true htrig)
        ?_]
  · rfl
  · intro k hk hpk
    rw [List.mem_range'_1] at hk
    by_contra hgt
    have hk2 : k < closes.length := by omega
    exact absurd (of_decide_eq_true hpk) (not_lt.2 (hmax k hk2 (by omega)))

/-- Closed form of the dynamic-tightness scan when no day qualifies. -/
theorem tightnessScan_no_trigger (thr dflt : ℚ) (closes opens : List ℚ)
    (hnone : ∀ k < closes.length, 1 ≤ k → gapAt closes opens k ≤ thr) :
    tightnessScan thr dflt closes opens = (0, dflt) := by
  unfold tightnessScan
  rw [foldl_if_eq_lastFilter (fun i => (i, tolAt closes opens i))
        (fun i => thr < gapAt closes opens i)]
  have : (List.range' 1 (closes.length - 1)).filter
      (fun i => decide (thr < gapAt closes opens i)) = [] := by
    rw [List.filter_eq_nil_iff]
    intro k hk hpk
    rw [List.mem_range'_1] at hk
    exact absurd (of_decide_eq_true hpk) (not_lt.2 (hnone k (by omega) (by omega)))
  rw [this]
  rfl

theorem qmax_le_left (a b : ℚ) : a ≤ qmax a b := by
  unfold qmax; split <;> linarith

/-- The installed tolerance of a qualifying day is at least its gap. -/
theorem tolAt_ge_gap (closes opens : List ℚ) (i : ℕ) :
    gapAt closes opens i ≤ tolAt closes opens i := by
  unfold tolAt ratCeil
  have h1 : (qmax (gapAt closes opens i) (gainAt closes i)) * 100 ≤
      ((⌈qmax (gapAt closes opens i) (gainAt closes i) * 100⌉ : ℤ) : ℚ) := Int.le_ceil _
  have h2 := qmax_le_left (gapAt closes opens i) (gainAt closes i)
  linarith

/-- The allowed tightness never drops below the default when the default
is at most the gap threshold. -/
theorem tightnessScan_snd_ge (thr dflt : ℚ) (closes opens : List ℚ) (hd : dflt ≤ thr) :
    dflt ≤ (tightnessScan thr dflt closes opens).2 := by
  unfold tightnessScan
  rw [foldl_if_eq_lastFilter (fun i => (i, tolAt closes opens i))
        (fun i => thr < gapAt closes opens i)]
  cases hl : (((List.range' 1 (closes.length - 1)).filter
      (fun i => decide (thr < gapAt closes opens i)))).getLast? with
  | none => simp
  | some j =>
      have hjmem := List.mem_of_getLast?_eq_some hl
      have hpj := List.of_mem_filter hjmem
      have htrig : thr < gapAt closes opens j := of_decide_eq_true hpj
      have := tolAt_ge_gap closes opens j
      simp only [Option.elim]
      linarith

/-- The valid start index stays inside the window. -/
theorem tightnessScan_fst_lt (thr dflt : ℚ) (closes opens : List ℚ)
    (h : 1 ≤ closes.length) : (tightnessScan thr dflt closes opens).1 < closes.length := by
  unfold tightnessScan
  rw [foldl_if_eq_lastFilter (fun i => (i, tolAt closes opens i))
        (fun i => thr < gapAt closes opens i)]
  cases hl : (((List.range' 1 (closes.length - 1)).filter
      (fun i => decide (thr < gapAt closes opens i)))).getLast? with
  | none => simpa using h
  | some j =>
      have hjmem := List.mem_of_getLast?_eq_some hl
      have := List.mem_filter.1 hjmem
      have hjr := this.1
      rw [List.mem_range'_1] at hjr
      simp only [Option.elim]
      omega

/-- Ten-day window of Scenario 2 of the specification: day 5 opens with
a +5% gap over the previous close of 100 and closes +9.4% up. -/
def scenCloses : List ℚ := [100, 100, 100, 100, 100, 547/5, 547/5, 547/5, 547/5, 547/5]

def scenOpens : List ℚ := [100, 100, 100, 100, 100, 105, 547/5, 547/5, 547/5, 547/5]

/-- C1: in the dynamic tightness gate, a day whose open gap strictly
exceeds the threshold resets the valid start index to itself and
installs `ceil(max(gap, day_gain)·100)/100` as tolerance, so the last
qualifying day of the window decides both (first conjunct), the
defaults survive when no day qualifies (second conjunct), the Scenario-2
window with a +5% gap and +9.4% same-day gain yields index 5 and
tolerance 0.10 (third conjunct), and the gate passes iff fewer than two
closes remain after the reset or the adjusted range over the last close
stays within the allowed tightness (fourth conjunct). -/
theorem tightness_gate_last_gap_and_scenario :
    (∀ (thr dflt : ℚ) (closes opens : List ℚ) (j : ℕ),
        1 ≤ j → j < closes.length → thr < gapAt closes opens j →
        (∀ k < closes.length, j < k → gapAt closes opens k ≤ thr) →
        tightnessScan thr dflt closes opens = (j, tolAt closes opens j)) ∧
    (∀ (thr dflt : ℚ) (closes opens : List ℚ),
        (∀ k < closes.length, 1 ≤ k → gapAt closes opens k ≤ thr) →
        tightnessScan thr dflt closes opens = (0, dflt)) ∧
    tightnessScan (1/25) (7/200) scenCloses scenOpens = (5, 1/10) ∧
    (∀ (thr dflt lastC : ℚ) (closes opens : List ℚ),
        vcpTightOk thr dflt closes opens lastC = true ↔
          ((closes.drop (tightnessScan thr dflt closes opens).1).length < 2 ∨
           (listMaxD (closes.drop (tightnessScan thr dflt closes opens).1) -
              listMinD (closes.drop (tightnessScan thr dflt closes opens).1)) / lastC ≤
             (tightnessScan thr dflt closes opens).2)) := by
  refine ⟨tightnessScan_last_trigger, tightnessScan_no_trigger, by decide, ?_⟩
  intro thr dflt lastC closes opens
  by_cases h : (closes.drop (tightnessScan thr dflt closes opens).1).length < 2
  · simp [vcpTightOk, h]
  · simp [vcpTightOk, h, not_lt]

/-- Witness for C1: a five-day window whose day 3 gaps up 6% and closes
flat gives valid start index 3 and tolerance 6%. -/
theorem tightness_gate_last_gap_witness :
    tightnessScan (1/25) (7/200) [100, 100, 100, 100, 100] [100, 100, 100, 106, 100] =
      (3, 6/100) := by
  have h := tightness_gate_last_gap_and_scenario.1 (1/25) (7/200)
    [100, 100, 100, 100, 100] [100, 100, 100, 106, 100] 3
    (by decide) (by decide) (by decide) (by decide)
  rw [h]
  decide

/-- C5: after the dynamic-tightness scan the allowed tightness never
drops below the default (given the default does not exceed the gap
threshold, as with the shipped 0.035 ≤ 0.04), it is a function of the
last qualifying day alone, and with no qualifying day the scan returns
the default tolerance and start index 0. -/
theorem tightness_invariant :
    (∀ (thr dflt : ℚ) (closes opens : List ℚ), dflt ≤ thr →
        dflt ≤ (tightnessScan thr dflt closes opens).2) ∧
    (∀ (thr dflt : ℚ) (closes opens : List ℚ) (j : ℕ),
        1 ≤ j → j < closes.length → thr < gapAt closes opens j →
        (∀ k < closes.length, j < k → gapAt closes opens k ≤ thr) →
        tightnessScan thr dflt closes opens =
          (j, (ratCeil (qmax (gapAt closes opens j) (gainAt closes j) * 100) : ℚ) / 100)) ∧
    (∀ (thr dflt : ℚ) (closes opens : List ℚ),
        (∀ k < closes.length, 1 ≤ k → gapAt closes opens k ≤ thr) →
        tightnessScan thr dflt closes opens = (0, dflt)) := by
  refine ⟨?_, ?_, tightnessScan_no_trigger⟩
  · intro thr dflt closes opens hd
    exact tightnessScan_snd_ge thr dflt closes opens hd
  · intro thr dflt closes opens j h1 h2 h3 h4
    exact tightnessScan_last_trigger thr dflt closes opens j h1 h2 h3 h4

/-- Witness for C5: on a flat ten-day window with the shipped defaults
the allowed tightness stays at least the 3.5% default. -/
theorem tightness_invariant_witness :
    (7:ℚ)/200 ≤ (tightnessScan (1/25) (7/200)
      (List.replicate 10 100) (List.replicate 10 100)).2 :=
  tightness_invariant.1 (1/25) (7/200) (List.replicate 10 100) (List.replicate 10 100)
    (by norm_num)

/-- The short-circuiting chain equals the conjunction of its gates. -/
theorem check_vcp_decomp (cfg : Config) (df : Df) (qqq : Option (List (ℕ × ℚ))) :
    check_vcp_criteria cfg df qqq =
      (lengthOk df && priceOk cfg df && dollarOk cfg df && posOk cfg df &&
       depthOk cfg df && vduOk cfg df && tightOk cfg df && rsOkOpt cfg df qqq &&
       trendOk df) := by
  by_cases h1 : df.length < 260
  · simp [check_vcp_criteria, lengthOk, h1]
  by_cases h2 : currentClose df < cfg.MIN_PRICE
  · simp [check_vcp_criteria, lengthOk, priceOk, h1, h2]
  by_cases h3 : currentClose df * avgVol20 df < cfg.MIN_DOLLAR_VOL_20D
  · simp [check_vcp_criteria, lengthOk, priceOk, dollarOk, h1, h2, h3]
  by_cases h4 : currentClose df < low52w df * cfg.LOW_52W_MULTIPLIER
  · simp [check_vcp_criteria, lengthOk, priceOk, dollarOk, posOk, h1, h2, h3, h4]
  by_cases h5 : FVal.lt (.val cfg.CONSOLIDATION_MAX_DEPTH_60D) (depth60 df) = true
  · simp [check_vcp_criteria, lengthOk, priceOk, dollarOk, posOk, depthOk, h1, h2, h3, h4, h5]
  by_cases h6 : avgVol20 df * cfg.vduMax ≤ avgVol3 df
  · simp [check_vcp_criteria, lengthOk, priceOk, dollarOk, posOk, depthOk, vduOk,
      h1, h2, h3, h4, h5, h6]
  have h5b : FVal.lt (.val cfg.CONSOLIDATION_MAX_DEPTH_60D) (depth60 df) = false :=
    Bool.not_eq_true _ ▸ Bool.of_not_eq_true h5
  by_cases h7 : 2 ≤ ((takeLast cfg.VCP_TIGHT_DAYS (closesOf df)).drop
        (tightnessScan cfg.VCP_GAP_THRESHOLD cfg.VCP_DEFAULT_TIGHTNESS
          (takeLast cfg.VCP_TIGHT_DAYS (closesOf df))
          (takeLast cfg.VCP_TIGHT_DAYS (opensOf df))).1).length ∧
      (tightnessScan cfg.VCP_GAP_THRESHOLD cfg.VCP_DEFAULT_TIGHTNESS
          (takeLast cfg.VCP_TIGHT_DAYS (closesOf df))
          (takeLast cfg.VCP_TIGHT_DAYS (opensOf df))).2 <
        (listMaxD ((takeLast cfg.VCP_TIGHT_DAYS (closesOf df)).drop
            (tightnessScan cfg.VCP_GAP_THRESHOLD cfg.VCP_DEFAULT_TIGHTNESS
              (takeLast cfg.VCP_TIGHT_DAYS (closesOf df))
              (takeLast cfg.VCP_TIGHT_DAYS (opensOf df))).1) -
          listMinD ((takeLast cfg.VCP_TIGHT_DAYS (closesOf df)).drop
            (tightnessScan cfg.VCP_GAP_THRESHOLD cfg.VCP_DEFAULT_TIGHTNESS
              (takeLast cfg.VCP_TIGHT_DAYS (closesOf df))
              (takeLast cfg.VCP_TIGHT_DAYS (opensOf df))).1)) / currentClose df
  · obtain ⟨h7a, h7b⟩ := h7
    have ht : tightOk cfg df = false := by
      simp only [tightOk, vcpTightOk]
      rw [if_neg (by omega)]
      simp [h7b]
    have hL : check_vcp_criteria cfg df qqq = false := by
      simp only [check_vcp_criteria]
      rw [if_neg h1, if_neg h2, if_neg h3, if_neg h4, if_neg (by simp [h5b]),
        if_neg h6, if_pos ⟨h7a, h7b⟩]
    rw [hL, ht]
    simp
  · have ht : tightOk cfg df = true := by
      simp only [tightOk, vcpTightOk]
      rcases Decidable.not_and_iff_or_not.1 h7 with hlt | hrange
      · rw [if_pos (by omega)]
      · by_cases hsmall : ((takeLast cfg.VCP_TIGHT_DAYS (closesOf df)).drop
            (tightnessScan cfg.VCP_GAP_THRESHOLD cfg.VCP_DEFAULT_TIGHTNESS
              (takeLast cfg.VCP_TIGHT_DAYS (closesOf df))
              (takeLast cfg.VCP_TIGHT_DAYS (opensOf df))).1).length < 2
        · rw [if_pos hsmall]
        · rw [if_neg hsmall]
          simpa using hrange
    have hL : check_vcp_criteria cfg df qqq =
        (if (match qqq with
             | some q => !(compute_fallen_angel_rs_features cfg df q).1
             | none => false) then false else
         match smaLast 50 (closesOf df), smaLast 200 (closesOf df) with
         | some s50, some s200 =>
             if currentClose df < s50 then false
             else if s50 < s200 then false else true
         | _, _ => false) := by
      simp only [check_vcp_criteria]
      rw [if_neg h1, if_neg h2, if_neg h3, if_neg h4, if_neg (by simp [h5b]),
        if_neg h6, if_neg h7]
    rw [hL]
    simp only [lengthOk, priceOk, dollarOk, posOk, depthOk, vduOk,
      decide_eq_true_eq, h1, h2, h3, h4, h5b, h6, decide_eq_false_iff_not,
      not_false_eq_true, Bool.not_false, Bool.true_and, ht, Bool.and_true]
    cases qqq with
    | none =>
        simp only [rsOkOpt, Bool.true_and]
        cases hs50 : smaLast 50 (closesOf df) with
        | none => simp [trendOk, hs50]
        | some s50 =>
            cases hs200 : smaLast 200 (closesOf df) with
            | none => simp [trendOk, hs200]
            | some s200 =>
                simp only [trendOk, hs50, hs200]
                by_cases ht1 : currentClose df < s50
                · simp [ht1]
                · by_cases ht2 : s50 < s200
                  · simp [ht1, ht2]
                  · simp [ht1, ht2]
    | some q =>
        simp only [rsOkOpt]
        by_cases hrs : (compute_fallen_angel_rs_features cfg df q).1 = true
        · rw [if_neg (by simp [hrs])]
          simp only [hrs, Bool.true_and]
          cases hs50 : smaLast 50 (closesOf df) with
          | none => simp [trendOk, hs50]
          | some s50 =>
              cases hs200 : smaLast 200 (closesOf df) with
              | none => simp [trendOk, hs200]
              | some s200 =>
                  simp only [trendOk, hs50, hs200]
                  by_cases ht1 : currentClose df < s50
                  · simp [ht1]
                  · by_cases ht2 : s50 < s200
                    · simp [ht1, ht2]
                    · simp [ht1, ht2]
        · have hrs2 : (compute_fallen_angel_rs_features cfg df q).1 = false :=
            Bool.not_eq_true _ ▸ Bool.of_not_eq_true hrs
          rw [if_pos (by simp [hrs2])]
          simp [hrs2]

/-- Alignment never produces more rows than the stock series has. -/
theorem alignedOf_length_le (df : Df) (qqq : List (ℕ × ℚ)) :
    (alignedOf df qqq).length ≤ df.length := by
  unfold alignedOf alignPair stockCloseSeries
  refine le_trans (List.length_filterMap_le _ _) ?_
  rw [List.length_zip]
  simp [min_le_left]

/-- C6: a bar series shorter than 260 observations fails the chain gate,
the Fallen-Angel gate and the diagnostic verdict, whatever the rest of
the data looks like (the model functions are total, mirroring that the
source returns early before touching anything that could raise). -/
theorem short_series_all_gates_fail (cfg : Config) (df : Df)
    (qqq : Option (List (ℕ × ℚ))) (qqq2 : List (ℕ × ℚ)) (h : df.length < 260) :
    check_vcp_criteria cfg df qqq = false ∧
    (compute_fallen_angel_rs_features cfg df qqq2).1 = false ∧
    diagnose_single_stock_pass cfg df qqq = false := by
  refine ⟨by simp [check_vcp_criteria, h], ?_, by simp [diagnose_single_stock_pass, h]⟩
  unfold compute_fallen_angel_rs_features
  by_cases he : (df.isEmpty || qqq2.isEmpty) = true
  · simp [he]
  · have hal : (alignedOf df qqq2).length < 260 :=
      lt_of_le_of_lt (alignedOf_length_le df qqq2) h
    rw [if_neg (by simpa using he), if_pos hal]

/-- Witness for C6: a one-row series fails all three entry points. -/
theorem short_series_all_gates_fail_witness :
    check_vcp_criteria defaultConfig [(0, barAt 0)] none = false ∧
    (compute_fallen_angel_rs_features defaultConfig [(0, barAt 0)] [(0, 100)]).1 = false ∧
    diagnose_single_stock_pass defaultConfig [(0, barAt 0)] none = false :=
  short_series_all_gates_fail defaultConfig [(0, barAt 0)] none [(0, 100)] (by decide)

theorem FVal.le_val_mono {a b : ℚ} (x : FVal) (hab : a ≤ b)
    (h : FVal.le (.val b) x = true) : FVal.le (.val a) x = true := by
  cases x with
  | nan => simp_all [FVal.le]
  | inf => simp [FVal.le]
  | ninf => simp_all [FVal.le]
  | val q => simp_all [FVal.le]; linarith

/-- C9: raising MIN_PEAK_EXCESS_3M can only lose Stage-A passes, never
create one: a pass at the higher threshold is a pass at any lower one,
every other input held fixed. -/
theorem stageA_antitone_min_peak_excess (closeS closeB : List ℚ) (cfg : Config)
    (m m2 : ℚ) (hm : m ≤ m2)
    (hpass : stageA_ok { cfg with MIN_PEAK_EXCESS_3M := m2 } closeS closeB = true) :
    stageA_ok { cfg with MIN_PEAK_EXCESS_3M := m } closeS closeB = true := by
  unfold stageA_ok at hpass ⊢
  simp only [Bool.or_eq_true, Bool.and_eq_true] at hpass ⊢
  rcases hpass with ⟨hna, hle⟩ | hB
  · exact Or.inl ⟨hna, FVal.le_val_mono _ hm hle⟩
  · exact Or.inr hB

set_option maxRecDepth 8000 in
/-- Witness for C9: equal flat stock and benchmark series pass Stage A
at threshold 0 (the excess maximum is 0) and hence at threshold -1. -/
theorem stageA_antitone_witness :
    stageA_ok { defaultConfig with MIN_PEAK_EXCESS_3M := (-1 : ℚ) }
      (List.replicate 260 1) (List.replicate 260 1) = true :=
  stageA_antitone_min_peak_excess (List.replicate 260 1) (List.replicate 260 1)
    defaultConfig (-1) 0 (by norm_num) (by decide)

/-- C7: once the price, liquidity, position and consolidation gates have
passed, the volume dry-up gate passes iff the 3-day average volume is
strictly below the scaled 20-day average; at or above the boundary the
whole chain fails, and strictly below it the chain reduces to the
remaining gates. -/
theorem vdu_gate_boundary (cfg : Config) (df : Df) (qqq : Option (List (ℕ × ℚ)))
    (hlen : lengthOk df = true) (hp : priceOk cfg df = true)
    (hd : dollarOk cfg df = true) (hpos : posOk cfg df = true)
    (hdep : depthOk cfg df = true) :
    (vduOk cfg df = true ↔ avgVol3 df < avgVol20 df * cfg.vduMax) ∧
    (avgVol20 df * cfg.vduMax ≤ avgVol3 df → check_vcp_criteria cfg df qqq = false) ∧
    (avgVol3 df < avgVol20 df * cfg.vduMax →
      check_vcp_criteria cfg df qqq =
        (tightOk cfg df && rsOkOpt cfg df qqq && trendOk df)) := by
  refine ⟨by simp [vduOk, not_le], ?_, ?_⟩
  · intro hge
    rw [check_vcp_decomp]
    have hv : vduOk cfg df = false := by simp [vduOk, hge]
    simp [hv]
  · intro hlt
    rw [check_vcp_decomp]
    have hv : vduOk cfg df = true := by simp [vduOk, not_le, hlt]
    simp [hlen, hp, hd, hpos, hdep, hv, Bool.and_assoc]

/-- A 260-day series with constant volume: the 3-day average equals the
20-day average exactly, the boundary case of the VDU rule. -/
def constVolDf : Df :=
  (List.range 260).map (fun i =>
    (i, { op := 30, hi := 30, lo := 24, cl := 30, vol := 1000000 : Bar }))

set_option maxRecDepth 8000 in
/-- Witness for C7: constant volumes sit exactly at the 0.70 boundary
(the 3-day and 20-day averages coincide) and the chain fails. -/
theorem vdu_gate_boundary_witness :
    avgVol20 constVolDf * defaultConfig.vduMax ≤ avgVol3 constVolDf ∧
    check_vcp_criteria defaultConfig constVolDf none = false :=
  ⟨by decide,
   (vdu_gate_boundary defaultConfig constVolDf none (by decide) (by decide)
      (by decide) (by decide) (by decide)).2.1 (by decide)⟩

/-- C10: with no benchmark series supplied, the chain returns true as
soon as the length, price, liquidity, position, consolidation, volume,
tightness and trend gates pass: no relative-strength evaluation happens
and its absence does not fail the stock. -/
theorem no_benchmark_skips_rs_gate (cfg : Config) (df : Df)
    (hlen : lengthOk df = true) (hp : priceOk cfg df = true)
    (hd : dollarOk cfg df = true) (hpos : posOk cfg df = true)
    (hdep : depthOk cfg df = true) (hv : vduOk cfg df = true)
    (htight : tightOk cfg df = true) (htrend : trendOk df = true) :
    check_vcp_criteria cfg df none = true := by
  rw [check_vcp_decomp]
  simp [hlen, hp, hd, hpos, hdep, hv, htight, htrend, rsOkOpt]

set_option maxRecDepth 8000 in
/-- Witness for C10: the running example passes the whole chain with the
benchmark argument absent. -/
theorem no_benchmark_skips_rs_gate_witness :
    check_vcp_criteria defaultConfig exDf none = true :=
  no_benchmark_skips_rs_gate defaultConfig exDf (by decide) (by decide) (by decide)
    (by decide) (by decide) (by decide) (by decide) (by decide)

theorem FVal.notna_and_le_val_left (a : ℚ) (x : FVal) :
    (!x.isna && FVal.le (.val a) x) = FVal.le (.val a) x := by
  cases x <;> simp [FVal.isna, FVal.le]

theorem FVal.notna_and_le_val_right (a : ℚ) (x : FVal) :
    (!x.isna && FVal.le x (.val a)) = FVal.le x (.val a) := by
  cases x <;> simp [FVal.isna, FVal.le]

theorem FVal.band_guard (a b : ℚ) (x : FVal) :
    (!(x.isna || !(FVal.le (.val a) x && FVal.le x (.val b)))) =
      (FVal.le (.val a) x && FVal.le x (.val b)) := by
  cases x <;> simp [FVal.isna, FVal.le]

/-- C3: over an aligned pair of at least 260 rows (and a resilience
lookback fitting inside it, as the shipped 126 does), Stage B passes iff
the price drawdown lies in the configured band, the RS-near-high ratio
meets its floor and the drawdown ratio meets its cap — the explicit NaN
guards of the source are redundant because every comparison against NaN
is already false; and whenever the price drawdown is zero or undefined
the drawdown ratio is +infinity, which fails the cap and the stage. -/
theorem stageB_pass_iff (cfg : Config) (closeS closeB : List ℚ)
    (h260 : 260 ≤ closeS.length) (hlb : cfg.RESILIENCE_LOOKBACK_D + 5 ≤ 260) :
    (stageB_ok cfg closeS closeB =
      (FVal.le (.val cfg.MIN_PRICE_DD) (priceDd cfg closeS) &&
       FVal.le (priceDd cfg closeS) (.val cfg.MAX_PRICE_DD) &&
       FVal.le (.val cfg.MIN_RS_NEAR_HIGH_PCT) (rsNearHigh cfg closeS closeB) &&
       FVal.le (rsRatio cfg closeS closeB) (.val cfg.maxRsDdToPriceDd))) ∧
    ((priceDd cfg closeS = FVal.val 0 ∨ (priceDd cfg closeS).isna = true) →
      rsRatio cfg closeS closeB = FVal.inf ∧
      FVal.le (rsRatio cfg closeS closeB) (.val cfg.maxRsDdToPriceDd) = false ∧
      stageB_ok cfg closeS closeB = false) := by
  have hmain : stageB_ok cfg closeS closeB =
      (FVal.le (.val cfg.MIN_PRICE_DD) (priceDd cfg closeS) &&
       FVal.le (priceDd cfg closeS) (.val cfg.MAX_PRICE_DD) &&
       FVal.le (.val cfg.MIN_RS_NEAR_HIGH_PCT) (rsNearHigh cfg closeS closeB) &&
       FVal.le (rsRatio cfg closeS closeB) (.val cfg.maxRsDdToPriceDd)) := by
    unfold stageB_ok
    rw [FVal.band_guard, FVal.notna_and_le_val_left, FVal.notna_and_le_val_right]
    have hlen : decide (closeS.length < cfg.RESILIENCE_LOOKBACK_D + 5) = false := by
      simp only [decide_eq_false_iff_not, not_lt]
      omega
    rw [hlen]
    simp [Bool.and_assoc]
  refine ⟨hmain, ?_⟩
  intro hdd
  have hinf : rsRatio cfg closeS closeB = FVal.inf := by
    unfold rsRatio safeDiv
    rcases hdd with hdd | hdd
    · rw [if_pos (Or.inl hdd)]
    · rw [if_pos (Or.inr hdd)]
  have hfalse : FVal.le FVal.inf (.val cfg.maxRsDdToPriceDd) = false := rfl
  refine ⟨hinf, by rw [hinf, hfalse], ?_⟩
  rw [hmain, hinf, hfalse]
  simp

/-- Witness for C3: the guard-free characterization of Stage B holds on
a flat 260-row aligned pair under the shipped configuration. -/
theorem stageB_pass_iff_witness :
    stageB_ok defaultConfig (List.replicate 260 1) (List.replicate 260 1) =
      (FVal.le (.val defaultConfig.MIN_PRICE_DD)
         (priceDd defaultConfig (List.replicate 260 1)) &&
       FVal.le (priceDd defaultConfig (List.replicate 260 1))
         (.val defaultConfig.MAX_PRICE_DD) &&
       FVal.le (.val defaultConfig.MIN_RS_NEAR_HIGH_PCT)
         (rsNearHigh defaultConfig (List.replicate 260 1) (List.replicate 260 1)) &&
       FVal.le (rsRatio defaultConfig (List.replicate 260 1) (List.replicate 260 1))
         (.val defaultConfig.maxRsDdToPriceDd)) :=
  (stageB_pass_iff defaultConfig (List.replicate 260 1) (List.replicate 260 1)
    (by rw [List.length_replicate]) (by norm_num [defaultConfig])).1

theorem bool_not_true_of_eq_false {b : Bool} (h : b = false) : ¬(b = true) := by
  simp [h]

theorem alignedS_length (df : Df) (qqq : List (ℕ × ℚ)) :
    (alignedS df qqq).length = (alignedOf df qqq).length := List.length_map _ _

/-- C4: the Fallen-Angel gate is the short-circuit conjunction of the
pre-check and the three stages in order A, B, C; the returned bundle
always carries exactly the four features, equal to the cumulative
features of the last stage reached, and the features of stages after the
failing one are still NaN (the Stage-A bundle leaves the three later
features NaN, the Stage-B bundle leaves the slope NaN). -/
theorem fa_gate_stage_structure (cfg : Config) (df : Df) (qqq : List (ℕ × ℚ)) :
    compute_fallen_angel_rs_features cfg df qqq =
      (((!df.isEmpty && !qqq.isEmpty) && !decide ((alignedOf df qqq).length < 260)) &&
        stageA_ok cfg (alignedS df qqq) (alignedB df qqq) &&
        stageB_ok cfg (alignedS df qqq) (alignedB df qqq) &&
        stageC_ok cfg (alignedS df qqq) (alignedB df qqq),
       if (df.isEmpty || qqq.isEmpty) || decide ((alignedOf df qqq).length < 260) then
         nanFeatures
       else if !stageA_ok cfg (alignedS df qqq) (alignedB df qqq) then
         featA cfg (alignedS df qqq) (alignedB df qqq)
       else if !stageB_ok cfg (alignedS df qqq) (alignedB df qqq) then
         featB cfg (alignedS df qqq) (alignedB df qqq)
       else featC cfg (alignedS df qqq) (alignedB df qqq)) ∧
    (featA cfg (alignedS df qqq) (alignedB df qqq)).rs_near_high_pct = FVal.nan ∧
    (featA cfg (alignedS df qqq) (alignedB df qqq)).rs_dd_vs_price_dd = FVal.nan ∧
    (featA cfg (alignedS df qqq) (alignedB df qqq)).rs_ma20_slope = FVal.nan ∧
    (featB cfg (alignedS df qqq) (alignedB df qqq)).rs_ma20_slope = FVal.nan := by
  refine ⟨?_, by unfold featA; split <;> rfl, by unfold featA; split <;> rfl,
    by unfold featA; split <;> rfl, by unfold featB; split <;> (unfold featA; split <;> rfl)⟩
  have hSB : (alignedS df qqq).length = (alignedOf df qqq).length := alignedS_length df qqq
  unfold compute_fallen_angel_rs_features
  by_cases hemp : (df.isEmpty || qqq.isEmpty) = true
  · rw [if_pos hemp]
    rcases Bool.or_eq_true_iff.mp hemp with he | he <;> simp [he]
  · have hemp2 : (df.isEmpty || qqq.isEmpty) = false :=
      Bool.not_eq_true _ ▸ Bool.of_not_eq_true hemp
    have hne : ¬df = [] ∧ ¬qqq = [] := by
      constructor
      · intro h
        rw [h] at hemp2
        simp at hemp2
      · intro h
        rw [h] at hemp2
        simp at hemp2
    rw [if_neg (by simp [hemp2])]
    by_cases hlen : (alignedOf df qqq).length < 260
    · rw [if_pos hlen]
      simp [hemp2, hlen, Bool.or_eq_true_iff.mpr]
    · rw [if_neg hlen]
      have hlenb : decide ((alignedOf df qqq).length < 260) = false := by
        simp [hlen]
      by_cases hA : stageA_ok cfg (alignedS df qqq) (alignedB df qqq) = true
      · have hAexpr := hA
        unfold stageA_ok at hAexpr
        rw [if_neg (fun hn => hn hAexpr)]
        by_cases hB5 : (alignedOf df qqq).length < cfg.RESILIENCE_LOOKBACK_D + 5
        · rw [if_pos hB5]
          have hBfalse : stageB_ok cfg (alignedS df qqq) (alignedB df qqq) = false := by
            unfold stageB_ok
            rw [hSB]
            simp [hB5]
          have hfB : featB cfg (alignedS df qqq) (alignedB df qqq) =
              featA cfg (alignedS df qqq) (alignedB df qqq) := by
            unfold featB
            rw [hSB, if_pos hB5]
          rw [hfB] at *
          simp [hemp2, hlenb, hA, hBfalse, featA]
        · rw [if_neg hB5]
          have hB5b : decide ((alignedS df qqq).length < cfg.RESILIENCE_LOOKBACK_D + 5) = false := by
            rw [hSB]
            simp [hB5]
          have hfB : featB cfg (alignedS df qqq) (alignedB df qqq) =
              { featA cfg (alignedS df qqq) (alignedB df qqq) with
                  rs_near_high_pct :=
                    if !(rsNearHigh cfg (alignedS df qqq) (alignedB df qqq)).isna then
                      FVal.mul (rsNearHigh cfg (alignedS df qqq) (alignedB df qqq)) (.val 100)
                    else (featA cfg (alignedS df qqq) (alignedB df qqq)).rs_near_high_pct
                  rs_dd_vs_price_dd :=
                    if !(rsRatio cfg (alignedS df qqq) (alignedB df qqq)).isna then
                      rsRatio cfg (alignedS df qqq) (alignedB df qqq)
                    else (featA cfg (alignedS df qqq) (alignedB df qqq)).rs_dd_vs_price_dd } := by
            unfold featB
            rw [hSB, if_neg hB5]
          by_cases hdd : ((priceDd cfg (alignedS df qqq)).isna ||
              !(FVal.le (.val cfg.MIN_PRICE_DD) (priceDd cfg (alignedS df qqq)) &&
                FVal.le (priceDd cfg (alignedS df qqq)) (.val cfg.MAX_PRICE_DD))) = true
          · rw [if_pos hdd]
            have hBfalse : stageB_ok cfg (alignedS df qqq) (alignedB df qqq) = false := by
              unfold stageB_ok
              rw [hdd]
              simp
            simp [hemp2, hlenb, hA, hBfalse, hfB, featA, hne.1, hne.2]
          · have hdd2 : ((priceDd cfg (alignedS df qqq)).isna ||
                !(FVal.le (.val cfg.MIN_PRICE_DD) (priceDd cfg (alignedS df qqq)) &&
                  FVal.le (priceDd cfg (alignedS df qqq)) (.val cfg.MAX_PRICE_DD))) = false :=
              Bool.not_eq_true _ ▸ Bool.of_not_eq_true hdd
            rw [if_neg (bool_not_true_of_eq_false hdd2)]
            by_cases hres : ((!(rsNearHigh cfg (alignedS df qqq) (alignedB df qqq)).isna &&
                  FVal.le (.val cfg.MIN_RS_NEAR_HIGH_PCT)
                    (rsNearHigh cfg (alignedS df qqq) (alignedB df qqq))) &&
                (!(rsRatio cfg (alignedS df qqq) (alignedB df qqq)).isna &&
                  FVal.le (rsRatio cfg (alignedS df qqq) (alignedB df qqq))
                    (.val cfg.maxRsDdToPriceDd))) = true
            · rw [if_neg (fun hn => hn hres)]
              have hBtrue : stageB_ok cfg (alignedS df qqq) (alignedB df qqq) = true := by
                unfold stageB_ok
                rw [hB5b, hdd2, hres]
                rfl
              by_cases hC1 : (rsMaNow cfg (alignedS df qqq) (alignedB df qqq)).isna = true
              · rw [if_pos hC1]
                have hCfalse : stageC_ok cfg (alignedS df qqq) (alignedB df qqq) = false := by
                  unfold stageC_ok
                  rw [hC1]
                  rfl
                have hfC : featC cfg (alignedS df qqq) (alignedB df qqq) =
                    featB cfg (alignedS df qqq) (alignedB df qqq) := by
                  unfold featC
                  rw [if_pos hC1]
                simp [hemp2, hlenb, hA, hBtrue, hCfalse, hfC, hfB, featA, hne.1, hne.2]
              · have hC1b : (rsMaNow cfg (alignedS df qqq) (alignedB df qqq)).isna = false :=
                  Bool.not_eq_true _ ▸ Bool.of_not_eq_true hC1
                rw [if_neg (bool_not_true_of_eq_false hC1b)]
                have hfC : featC cfg (alignedS df qqq) (alignedB df qqq) =
                    (if !(rsMaSlope cfg (alignedS df qqq) (alignedB df qqq)).isna then
                      { featB cfg (alignedS df qqq) (alignedB df qqq) with
                          rs_ma20_slope :=
                            FVal.mul (rsMaSlope cfg (alignedS df qqq) (alignedB df qqq))
                              (.val 100) }
                     else featB cfg (alignedS df qqq) (alignedB df qqq)) := by
                  unfold featC
                  rw [if_neg (bool_not_true_of_eq_false hC1b)]
                by_cases hturn : (FVal.lt (rsMaNow cfg (alignedS df qqq) (alignedB df qqq))
                      (rsNow (alignedS df qqq) (alignedB df qqq)) &&
                    (!(rsMaSlope cfg (alignedS df qqq) (alignedB df qqq)).isna &&
                      FVal.lt (.val cfg.MIN_RS_MA20_SLOPE)
                        (rsMaSlope cfg (alignedS df qqq) (alignedB df qqq)))) = true
                · rw [if_neg (fun hn => hn hturn)]
                  have hCtrue : stageC_ok cfg (alignedS df qqq) (alignedB df qqq) = true := by
                    unfold stageC_ok
                    rw [hC1b, hturn]
                    rfl
                  simp [hemp2, hlenb, hA, hBtrue, hCtrue, hfC, hfB, featA, hne.1, hne.2]
                · have hturn2 : (FVal.lt (rsMaNow cfg (alignedS df qqq) (alignedB df qqq))
                      (rsNow (alignedS df qqq) (alignedB df qqq)) &&
                    (!(rsMaSlope cfg (alignedS df qqq) (alignedB df qqq)).isna &&
                      FVal.lt (.val cfg.MIN_RS_MA20_SLOPE)
                        (rsMaSlope cfg (alignedS df qqq) (alignedB df qqq)))) = false :=
                    Bool.not_eq_true _ ▸ Bool.of_not_eq_true hturn
                  rw [if_pos (bool_not_true_of_eq_false hturn2)]
                  have hCfalse : stageC_ok cfg (alignedS df qqq) (alignedB df qqq) = false := by
                    unfold stageC_ok
                    rw [hturn2]
                    simp
                  simp [hemp2, hlenb, hA, hBtrue, hCfalse, hfC, hfB, featA, hne.1, hne.2]
            · have hres2 : ((!(rsNearHigh cfg (alignedS df qqq) (alignedB df qqq)).isna &&
                  FVal.le (.val cfg.MIN_RS_NEAR_HIGH_PCT)
                    (rsNearHigh cfg (alignedS df qqq) (alignedB df qqq))) &&
                (!(rsRatio cfg (alignedS df qqq) (alignedB df qqq)).isna &&
                  FVal.le (rsRatio cfg (alignedS df qqq) (alignedB df qqq))
                    (.val cfg.maxRsDdToPriceDd))) = false :=
                Bool.not_eq_true _ ▸ Bool.of_not_eq_true hres
              rw [if_pos (bool_not_true_of_eq_false hres2)]
              have hBfalse : stageB_ok cfg (alignedS df qqq) (alignedB df qqq) = false := by
                unfold stageB_ok
                rw [hres2]
                simp
              simp [hemp2, hlenb, hA, hBfalse, hfB, featA, hne.1, hne.2]
      · have hA2 : stageA_ok cfg (alignedS df qqq) (alignedB df qqq) = false :=
          Bool.not_eq_true _ ▸ Bool.of_not_eq_true hA
        have hAexpr := hA2
        unfold stageA_ok at hAexpr
        rw [if_pos (bool_not_true_of_eq_false hAexpr)]
        simp [hemp2, hlenb, hA2, featA, hne.1, hne.2]

theorem option_match_eq_or (o : Option ℚ) (st : Option ℚ) :
    (match o with | some v => some v | none => st) = o.or st := by
  cases o <;> rfl

theorem findSome?_cons_or (f : ℕ → Option ℚ) (x : ℕ) (l : List ℕ) :
    (x :: l).findSome? f = (f x).or (l.findSome? f) := by
  cases h : f x <;> simp [List.findSome?_cons, h, Option.or]

theorem findSome?_concat_or (f : ℕ → Option ℚ) (l : List ℕ) (x : ℕ) :
    (l ++ [x]).findSome? f = (l.findSome? f).or (f x) := by
  rw [List.findSome?_append, findSome?_cons_or]
  simp [List.findSome?]

/-- Generalised forward-fill characterization of the source alignment:
row `i` survives iff some stock date at position at most `i` carries a
benchmark observation (or the carried-in state is set), and its
benchmark leg is the most recent such observation. -/
theorem alignPair_go_eq (qqq : List (ℕ × ℚ)) (stock : List (ℕ × ℚ)) (st : Option ℚ) :
    (stock.zip (reindexFfill qqq (stock.map Prod.fst) st)).filterMap
      (fun p => p.2.map (fun b => (p.1.1, p.1.2, b))) =
    (List.range stock.length).filterMap (fun i =>
      (((((stock.take (i+1)).map Prod.fst).reverse).findSome?
          (fun d => lookupDate d qqq)).or st).map
        (fun b => ((stock.getD i (0, 0)).1, (stock.getD i (0, 0)).2, b))) := by
  induction stock generalizing st with
  | nil => rfl
  | cons r rs ih =>
      have hcur : reindexFfill qqq ((r :: rs).map Prod.fst) st =
          ((lookupDate r.1 qqq).or st) ::
            reindexFfill qqq (rs.map Prod.fst) ((lookupDate r.1 qqq).or st) := by
        simp only [List.map_cons, reindexFfill, option_match_eq_or]
      rw [hcur, List.zip_cons_cons, List.filterMap_cons, ih ((lookupDate r.1 qqq).or st)]
      conv_rhs => rw [List.length_cons, List.range_succ_eq_map, List.filterMap_cons]
      have hY : ((((((r :: rs).take (0+1)).map Prod.fst).reverse).findSome?
            (fun d => lookupDate d qqq)).or st) = (lookupDate r.1 qqq).or st := by
        simp [List.findSome?]
        cases h : lookupDate r.1 qqq <;> simp [h, Option.or]
      rw [hY]
      have hT : (List.filterMap (fun i =>
            ((((((r :: rs).take (i+1)).map Prod.fst).reverse).findSome?
                (fun d => lookupDate d qqq)).or st).map
              (fun b => (((r :: rs).getD i (0, 0)).1, ((r :: rs).getD i (0, 0)).2, b)))
          ((List.range rs.length).map (· + 1))) =
          (List.range rs.length).filterMap (fun i =>
            (((((rs.take (i+1)).map Prod.fst).reverse).findSome?
                (fun d => lookupDate d qqq)).or ((lookupDate r.1 qqq).or st)).map
              (fun b => ((rs.getD i (0, 0)).1, (rs.getD i (0, 0)).2, b))) := by
        rw [List.filterMap_map]
        refine List.filterMap_congr ?_
        intro i _
        simp only [Function.comp]
        have htake : ((r :: rs).take (i + 1 + 1)).map Prod.fst =
            r.1 :: (rs.take (i + 1)).map Prod.fst := by
          simp [List.take_succ_cons]
        rw [htake, List.reverse_cons, findSome?_concat_or, Option.or_assoc]
        rfl
      rw [hT]
      rfl

/-- Amended C2: the code aligns by reindexing the benchmark onto the
stock dates and forward-filling it — row `i` of the stock is kept iff
some stock date at position at most `i` has a benchmark observation, and
the benchmark leg of the row is the latest such observation; rows are
not restricted to dates where the benchmark itself trades. -/
theorem align_ffill_characterization (stock qqq : List (ℕ × ℚ)) :
    alignPair stock qqq =
      (List.range stock.length).filterMap (fun i =>
        ((((stock.take (i+1)).map Prod.fst).reverse).findSome?
            (fun d => lookupDate d qqq)).map
          (fun b => ((stock.getD i (0, 0)).1, (stock.getD i (0, 0)).2, b))) := by
  unfold alignPair
  rw [alignPair_go_eq]
  refine List.filterMap_congr ?_
  intro i _
  rw [Option.or_none]

/-- C2 counterexample: with stock dates {1,2,3} and benchmark
observations only on {1,3}, the source's alignment keeps the date-2 row
and carries the date-1 benchmark value onto it, so it is not the
intersection-by-date the claim describes. -/
theorem align_not_intersection_cex :
    alignPair [(1, 10), (2, 11), (3, 12)] [(1, 100), (3, 110)] =
      [(1, 10, 100), (2, 11, 100), (3, 12, 110)] ∧
    alignPairSpec [(1, 10), (2, 11), (3, 12)] [(1, 100), (3, 110)] =
      [(1, 10, 100), (3, 12, 110)] ∧
    alignPair [(1, 10), (2, 11), (3, 12)] [(1, 100), (3, 110)] ≠
      alignPairSpec [(1, 10), (2, 11), (3, 12)] [(1, 100), (3, 110)] := by
  refine ⟨by decide, by decide, by decide⟩

theorem decide_le_eq_not_lt (a b : ℚ) : decide (a ≤ b) = !decide (b < a) := by
  by_cases h : a ≤ b
  · simp [h, not_lt.2 h]
  · simp [h, not_le.1 h]

theorem decide_lt_eq_not_lt_of_ne (a b : ℚ) (h : a ≠ b) :
    decide (a < b) = !decide (b < a) := by
  by_cases hab : a < b
  · simp [hab, not_lt.2 (le_of_lt hab)]
  · have hba : b < a := lt_of_le_of_ne (not_lt.1 hab) (fun e => h e.symm)
    simp [hab, hba]

theorem pairStep_forall {α : Type} {P : α → Prop} {f : α → α → α}
    (hf : ∀ a b, P a → P b → P (f a b)) :
    ∀ (l : List α), (∀ x ∈ l, P x) → ∀ y ∈ pairStep f l, P y
  | [], _ => by simp [pairStep]
  | [a], h => by simpa [pairStep] using h
  | a :: b :: tl, h => by
      intro y hy
      rw [show pairStep f (a :: b :: tl) = f a b :: pairStep f tl from rfl] at hy
      rcases List.mem_cons.1 hy with rfl | hy2
      · exact hf a b (h a (by simp)) (h b (by simp))
      · exact pairStep_forall hf tl (fun x hx => h x (by simp [hx])) y hy2

theorem pairStep_ne_nil {α : Type} (f : α → α → α) :
    ∀ (l : List α), l ≠ [] → pairStep f l ≠ []
  | [], h => absurd rfl h
  | [a], _ => by simp [pairStep]
  | _ :: _ :: _, _ => by
      rw [show pairStep f (_ :: _ :: _) = f _ _ :: pairStep f _ from rfl]
      simp

theorem pairStep_length_le {α : Type} (f : α → α → α) :
    ∀ (l : List α), (pairStep f l).length ≤ l.length
  | [] => by simp [pairStep]
  | [a] => by simp [pairStep]
  | a :: b :: tl => by
      rw [show pairStep f (a :: b :: tl) = f a b :: pairStep f tl from rfl]
      have := pairStep_length_le f tl
      simp only [List.length_cons]
      omega

theorem reduceGo_prop {α : Type} {P : α → Prop} {f : α → α → α} {d : α}
    (hf : ∀ a b, P a → P b → P (f a b)) :
    ∀ (fuel : ℕ) (l : List α), l ≠ [] → l.length ≤ fuel + 1 →
      (∀ x ∈ l, P x) → P (reduceGo f d fuel l)
  | _, [], h, _, _ => absurd rfl h
  | fuel, [a], _, _, h => by
      have : reduceGo f d fuel [a] = a := by cases fuel <;> rfl
      rw [this]
      exact h a (by simp)
  | 0, a :: b :: tl, _, hlen, _ => by simp at hlen
  | fuel + 1, a :: b :: tl, _, hlen, h => by
      rw [show reduceGo f d (fuel + 1) (a :: b :: tl) =
          reduceGo f d fuel (pairStep f (a :: b :: tl)) from rfl]
      have h1 : pairStep f (a :: b :: tl) ≠ [] := pairStep_ne_nil f _ (by simp)
      have h2 : (pairStep f (a :: b :: tl)).length ≤ fuel + 1 := by
        have hps : pairStep f (a :: b :: tl) = f a b :: pairStep f tl := rfl
        have := pairStep_length_le f tl
        rw [hps]
        simp only [List.length_cons] at hlen ⊢
        omega
      exact reduceGo_prop hf fuel _ h1 h2 (pairStep_forall hf _ h)

theorem listMaxD_pos (l : List ℚ) (hne : l ≠ []) (hp : ∀ x ∈ l, 0 < x) :
    0 < listMaxD l := by
  unfold listMaxD reduceBal
  refine reduceGo_prop ?_ l.length l hne (by omega) hp
  intro a b ha hb
  unfold qmax
  split <;> assumption

theorem takeLast_length (n : ℕ) (xs : List ℚ) :
    (takeLast n xs).length = xs.length - (xs.length - n) := by
  unfold takeLast
  rw [List.length_drop]

theorem mem_of_mem_takeLast {n : ℕ} {xs : List ℚ} {x : ℚ} (h : x ∈ takeLast n xs) :
    x ∈ xs := List.mem_of_mem_drop h

/-- Positive highs give a positive 60-day high once the series is long
enough. -/
theorem high60_pos (df : Df) (hlen : 260 ≤ df.length)
    (hhi : ∀ r ∈ df, 0 < r.2.hi) : 0 < high60 df := by
  unfold high60
  refine listMaxD_pos _ ?_ ?_
  · have hl : (takeLast 60 (highsOf df)).length = 60 := by
      rw [takeLast_length]
      unfold highsOf
      rw [List.length_map]
      omega
    intro he
    rw [he] at hl
    simp at hl
  · intro x hx
    have hx2 : x ∈ highsOf df := mem_of_mem_takeLast hx
    unfold highsOf at hx2
    rcases List.mem_map.1 hx2 with ⟨r, hr, rfl⟩
    exact hhi r hr

theorem decide_lt_eq_not_le (a b : ℚ) : decide (a < b) = !decide (b ≤ a) := by
  by_cases h : a < b
  · simp [h, not_le.2 h]
  · simp [h, not_lt.1 h]

theorem listMaxD_singleton (a : ℚ) : listMaxD [a] = a := rfl

theorem listMinD_singleton (a : ℚ) : listMinD [a] = a := rfl

/-- The diagnostic tightness verdict coincides with the chain's gate
whenever the default tolerance is nonnegative and at most the gap
threshold. -/
theorem vcpTight_eq_diag (thr dflt lastC : ℚ) (closes opens : List ℚ)
    (hd0 : 0 ≤ dflt) (hdt : dflt ≤ thr) :
    decide ((listMaxD (closes.drop (tightnessScan thr dflt closes opens).1) -
             listMinD (closes.drop (tightnessScan thr dflt closes opens).1)) / lastC ≤
            (tightnessScan thr dflt closes opens).2) =
      vcpTightOk thr dflt closes opens lastC := by
  have hsnd : dflt ≤ (tightnessScan thr dflt closes opens).2 :=
    tightnessScan_snd_ge thr dflt closes opens hdt
  unfold vcpTightOk
  by_cases h : (closes.drop (tightnessScan thr dflt closes opens).1).length < 2
  · rw [if_pos h]
    have h0 : listMaxD (closes.drop (tightnessScan thr dflt closes opens).1) -
        listMinD (closes.drop (tightnessScan thr dflt closes opens).1) = 0 := by
      cases hadj : closes.drop (tightnessScan thr dflt closes opens).1 with
      | nil => simp [listMaxD, listMinD, reduceBal, reduceGo]
      | cons a tl =>
          cases tl with
          | nil => rw [listMaxD_singleton, listMinD_singleton]; ring
          | cons b tl2 =>
              rw [hadj] at h
              simp only [List.length_cons] at h
              omega
    rw [h0, zero_div]
    simp only [decide_eq_true_eq]
    linarith
  · rw [if_neg h]
    exact decide_le_eq_not_lt _ _

/-- Amended C8: the diagnostic reporter evaluates every gate and its
verdict is the conjunction of the per-gate verdicts; on a series with
positive highs and a nonempty benchmark it agrees with the
short-circuiting chain under the shipped thresholds, provided the trend
comparisons are away from their boundaries — the reporter demands the
strict inequalities close > 50-day SMA > 200-day SMA while the chain
only fails on the strict converses, so they part ways exactly when the
close equals the 50-day SMA or the two SMAs coincide. -/
theorem diagnose_vs_chain_equiv (df : Df) (qqq : List (ℕ × ℚ))
    (hq : qqq ≠ [])
    (hhi : ∀ r ∈ df, 0 < r.2.hi)
    (h50 : 260 ≤ df.length → tailMean 50 (closesOf df) ≠ currentClose df)
    (h5200 : 260 ≤ df.length → tailMean 50 (closesOf df) ≠ tailMean 200 (closesOf df)) :
    diagnose_single_stock_pass defaultConfig df (some qqq) =
      check_vcp_criteria defaultConfig df (some qqq) := by
  rw [check_vcp_decomp]
  by_cases hL : df.length < 260
  · have hf : lengthOk df = false := by simp [lengthOk, hL]
    simp [diagnose_single_stock_pass, hL, hf]
  · have hlen260 : 260 ≤ df.length := not_lt.1 hL
    have hlenOk : lengthOk df = true := by simp [lengthOk, hL]
    simp only [diagnose_single_stock_pass]
    rw [if_neg hL, hlenOk, Bool.true_and]
    have gPrice : decide ((10:ℚ) ≤ currentClose df) = priceOk defaultConfig df := by
      simp only [priceOk, defaultConfig]
      rw [decide_le_eq_not_lt]
    have gDollar : decide ((20000000:ℚ) ≤ currentClose df * avgVol20 df) =
        dollarOk defaultConfig df := by
      simp only [dollarOk, defaultConfig]
      rw [decide_le_eq_not_lt]
    have gPos : decide (low52w df * (5/4) ≤ currentClose df) =
        posOk defaultConfig df := by
      simp only [posOk, defaultConfig]
      rw [decide_le_eq_not_lt]
    have hh60 : 0 < high60 df := high60_pos df hlen260 hhi
    have hdepthval : depth60 df = FVal.val ((high60 df - low60 df) / high60 df) := by
      simp only [depth60, FVal.div]
      rw [if_neg (ne_of_gt hh60)]
    have gDepth : FVal.le (depth60 df) (.val (3/10)) = depthOk defaultConfig df := by
      simp only [depthOk, defaultConfig]
      rw [hdepthval]
      simp only [FVal.le, FVal.lt]
      rw [decide_le_eq_not_lt]
    have gTight : decide ((listMaxD ((takeLast defaultConfig.VCP_TIGHT_DAYS (closesOf df)).drop
            (tightnessScan defaultConfig.VCP_GAP_THRESHOLD (7/200)
              (takeLast defaultConfig.VCP_TIGHT_DAYS (closesOf df))
              (takeLast defaultConfig.VCP_TIGHT_DAYS (opensOf df))).1) -
          listMinD ((takeLast defaultConfig.VCP_TIGHT_DAYS (closesOf df)).drop
            (tightnessScan defaultConfig.VCP_GAP_THRESHOLD (7/200)
              (takeLast defaultConfig.VCP_TIGHT_DAYS (closesOf df))
              (takeLast defaultConfig.VCP_TIGHT_DAYS (opensOf df))).1)) / currentClose df ≤
          (tightnessScan defaultConfig.VCP_GAP_THRESHOLD (7/200)
            (takeLast defaultConfig.VCP_TIGHT_DAYS (closesOf df))
            (takeLast defaultConfig.VCP_TIGHT_DAYS (opensOf df))).2) =
        tightOk defaultConfig df := by
      have hdfl : defaultConfig.VCP_DEFAULT_TIGHTNESS = 7/200 := rfl
      unfold tightOk
      rw [hdfl]
      exact vcpTight_eq_diag _ _ _ _ _ (by norm_num)
        (by rw [show defaultConfig.VCP_GAP_THRESHOLD = 1/25 from rfl]; norm_num)
    have hqe : qqq.isEmpty = false := by
      cases qqq with
      | nil => exact absurd rfl hq
      | cons a tl => rfl
    have gRs : (if qqq.isEmpty then true
          else (compute_fallen_angel_rs_features defaultConfig df qqq).1) =
        rsOkOpt defaultConfig df (some qqq) := by
      rw [hqe]
      rfl
    have hs50 : smaLast 50 (closesOf df) = some (tailMean 50 (closesOf df)) := by
      unfold smaLast
      rw [if_neg (by simp only [closesOf, List.length_map]; omega)]
    have hs200 : smaLast 200 (closesOf df) = some (tailMean 200 (closesOf df)) := by
      unfold smaLast
      rw [if_neg (by simp only [closesOf, List.length_map]; omega)]
    have gTrend : (match smaLast 50 (closesOf df), smaLast 200 (closesOf df) with
          | some s50, some s200 =>
              decide (s50 < currentClose df) && decide (s200 < s50)
          | _, _ => false) = trendOk df := by
      simp only [trendOk, hs50, hs200]
      rw [decide_lt_eq_not_lt_of_ne _ _ (fun e => (h50 hlen260) e),
        decide_lt_eq_not_lt_of_ne _ _ (fun e => (h5200 hlen260) e.symm)]
    rw [gPrice, gDollar, gPos, gDepth, gTight, gRs, gTrend]
    by_cases hPc : currentClose df < 10
    · have : priceOk defaultConfig df = false := by
        simp [priceOk, defaultConfig, hPc]
      rw [this]
      simp
    · by_cases hDol : currentClose df * avgVol20 df < 20000000
      · have : dollarOk defaultConfig df = false := by
          simp [dollarOk, defaultConfig, hDol]
        rw [this]
        simp
      · have havg : 0 < avgVol20 df := by
          by_contra hn
          push_neg at hn
          have hc0 : (0:ℚ) ≤ currentClose df := le_trans (by norm_num) (not_lt.1 hPc)
          have : currentClose df * avgVol20 df ≤ 0 :=
            mul_nonpos_of_nonneg_of_nonpos hc0 hn
          have := not_lt.1 hDol
          linarith
        have hdiv : FVal.div (.val (avgVol3 df)) (.val (avgVol20 df)) =
            FVal.val (avgVol3 df / avgVol20 df) := by
          simp only [FVal.div]
          rw [if_neg (ne_of_gt havg)]
        have gVdu : FVal.lt (FVal.div (.val (avgVol3 df)) (.val (avgVol20 df)))
              (.val (7/10)) = vduOk defaultConfig df := by
          rw [hdiv]
          simp only [FVal.lt, vduOk, defaultConfig]
          have h1 : decide (avgVol3 df / avgVol20 df < 7/10) =
              decide (avgVol3 df < avgVol20 df * (7/10)) :=
            decide_eq_decide.2 (Iff.trans (div_lt_iff₀ havg) (by rw [mul_comm]))
          rw [h1, decide_lt_eq_not_le]
        rw [gVdu]

set_option maxRecDepth 8000 in
/-- C8 counterexample: on the running example — which passes every gate
and whose final close sits exactly on the 50-day moving average — the
short-circuiting chain returns true while the diagnostic verdict is
false, because the reporter demands the strict close > 50-day SMA while
the chain only fails on close < 50-day SMA.  The claimed equality
between the two entry points therefore fails as stated. -/
theorem diagnose_vs_chain_cex :
    check_vcp_criteria defaultConfig exDf (some qqqEx) = true ∧
    diagnose_single_stock_pass defaultConfig exDf (some qqqEx) = false :=
  ⟨by decide, by decide⟩

/-- Witness for the amended C8 theorem at a concrete input. -/
theorem diagnose_vs_chain_equiv_witness :
    diagnose_single_stock_pass defaultConfig [] (some [(0, 100)]) =
      check_vcp_criteria defaultConfig [] (some [(0, 100)]) :=
  diagnose_vs_chain_equiv [] [(0, 100)] (by simp) (by simp)
    (by intro h; simp at h) (by intro h; simp at h)
